import Mathlib

/-!
Verification of the radial layout engine and request handling of the
ai-learn-map repository.

The layout `useEffect` of `src/src/components/LearningMapFlow.tsx` is embedded
as a pure function `Flow.layout`.  The geometry is parameterised over the
coordinate field `α` together with the constant `pi` and the functions `cos`
and `sin`, so that the definition stays computable; the theorems about actual
geometry instantiate these with `Real.pi`, `Real.cos` and `Real.sin`.
JavaScript `forEach` loops with an index become structural recursions carrying
the index explicitly.  Rendering-only styling data (stroke colours, marker
sizes, CSS class names) carried on nodes and edges is not part of the model;
all fields the layout computes or that identify nodes and edges are.
-/

namespace Flow

/-- A leaf concept under a branch (interface `Subtopic` in the source). -/
structure Subtopic where
  id : String
  name : String
  description : String
deriving DecidableEq, Repr

/-- A main area of study under the topic (interface `Branch` in the source). -/
structure Branch where
  id : String
  name : String
  description : String
  subtopics : List Subtopic
deriving DecidableEq, Repr

/-- The validated tree handed to the layout engine
(interface `LearningMapData` in the source). -/
structure LearningMapData where
  topic : String
  branches : List Branch
deriving DecidableEq, Repr

/-- The role tag stored in the `type` field of a node's `data` object. -/
inductive NodeRole where
  | main
  | branch
  | subtopic
deriving DecidableEq, Repr

/-- The `data` object of an emitted node: label, optional description,
role tag and optional badge text. -/
structure NodeData where
  label : String
  description : Option String
  role : NodeRole
  badge : Option String
deriving DecidableEq, Repr

/-- An emitted node: id, position and display data
(the `type: custom` field is the same on every node and is omitted). -/
structure FlowNode (α : Type) where
  id : String
  x : α
  y : α
  data : NodeData
deriving DecidableEq, Repr

/-- An emitted edge: id, endpoint ids and the animation flag
(stroke style and arrow marker are rendering configuration and omitted). -/
structure FlowEdge where
  id : String
  source : String
  target : String
  animated : Bool
deriving DecidableEq, Repr

variable {α : Type} [Field α]

/-- Angle of branch `i` among `n` branches:
`angleStep * branchIndex - Math.PI / 2` with `angleStep = (2 * Math.PI) / branchCount`. -/
def branchAngle (pi : α) (n i : Nat) : α :=
  2 * pi / (n : α) * (i : α) - pi / 2

/-- x coordinate of branch `i`: `400 + radius * Math.cos(angle)` with `radius = 250`. -/
def branchPosX (pi : α) (cos : α → α) (n i : Nat) : α :=
  400 + 250 * cos (branchAngle pi n i)

/-- y coordinate of branch `i`: `200 + radius * Math.sin(angle)` with `radius = 250`. -/
def branchPosY (pi : α) (sin : α → α) (n i : Nat) : α :=
  200 + 250 * sin (branchAngle pi n i)

/-- Angle of subtopic `j` of a branch whose own angle is `angle` and which has
`m` subtopics: `angle + (subtopicIndex - (subtopics.length - 1) / 2) * 0.3`. -/
def subtopicAngle (angle : α) (m j : Nat) : α :=
  angle + ((j : α) - ((m : α) - 1) / 2) * (3 / 10)

/-- The node pushed for subtopic `j` of a branch positioned at
`(bx, yy)` with angle `angle` and `m` subtopics; `subtopicRadius = 180`. -/
def subtopicNode (cos sin : α → α) (angle bx yy : α) (m j : Nat)
    (s : Subtopic) : FlowNode α :=
  { id := s.id
    x := bx + 180 * cos (subtopicAngle angle m j)
    y := yy + 180 * sin (subtopicAngle angle m j)
    data := { label := s.name, description := some s.description
              role := NodeRole.subtopic, badge := none } }

/-- The edge pushed from a branch to one of its subtopics. -/
def subtopicEdge (branchId : String) (s : Subtopic) : FlowEdge :=
  { id := branchId ++ "-" ++ s.id, source := branchId, target := s.id
    animated := false }

/-- The inner `branch.subtopics.forEach` loop: nodes and edges pushed for the
subtopics of one branch, starting at subtopic index `j`. -/
def subtopicItems (cos sin : α → α) (angle bx yy : α) (branchId : String)
    (m : Nat) : Nat → List Subtopic → List (FlowNode α) × List FlowEdge
  | _, [] => ([], [])
  | j, s :: rest =>
    let tail := subtopicItems cos sin angle bx yy branchId m (j + 1) rest
    (subtopicNode cos sin angle bx yy m j s :: tail.1,
     subtopicEdge branchId s :: tail.2)

/-- The node pushed for branch `i` among `n` branches. -/
def branchNode (pi : α) (cos sin : α → α) (n i : Nat) (b : Branch) :
    FlowNode α :=
  { id := b.id
    x := branchPosX pi cos n i
    y := branchPosY pi sin n i
    data := { label := b.name, description := some b.description
              role := NodeRole.branch
              badge := some ("Branch " ++ toString (i + 1)) } }

/-- The edge pushed from the main node to a branch. -/
def branchEdge (b : Branch) : FlowEdge :=
  { id := "main-" ++ b.id, source := "main", target := b.id, animated := true }

/-- The outer `data.branches.forEach` loop: nodes and edges pushed for the
branches starting at branch index `i`, with `n` the total branch count. -/
def branchItems (pi : α) (cos sin : α → α) (n : Nat) :
    Nat → List Branch → List (FlowNode α) × List FlowEdge
  | _, [] => ([], [])
  | i, b :: rest =>
    let angle := branchAngle pi n i
    let bx := branchPosX pi cos n i
    let yy := branchPosY pi sin n i
    let subs := subtopicItems cos sin angle bx yy b.id b.subtopics.length 0
      b.subtopics
    let tail := branchItems pi cos sin n (i + 1) rest
    (branchNode pi cos sin n i b :: (subs.1 ++ tail.1),
     branchEdge b :: (subs.2 ++ tail.2))

/-- The main topic node pushed first, at the fixed anchor `(400, 50)`. -/
def mainNode (topic : String) : FlowNode α :=
  { id := "main", x := 400, y := 50
    data := { label := topic, description := none
              role := NodeRole.main, badge := some "Start Here" } }

/-- The layout computation of the `useEffect` in `LearningMapFlow.tsx`:
the main node followed by, per branch, the branch node and its subtopic
nodes, and the corresponding edges. -/
def layout (pi : α) (cos sin : α → α) (d : LearningMapData) :
    List (FlowNode α) × List FlowEdge :=
  let items := branchItems pi cos sin d.branches.length 0 d.branches
  (mainNode d.topic :: items.1, items.2)

/-- Total number of subtopics, `Σ Mᵢ`. -/
def totalSubtopics (d : LearningMapData) : Nat :=
  (d.branches.map fun b => b.subtopics.length).sum

/-- The Gardening example scenario of the spec, used as a concrete input. -/
def exampleData : LearningMapData :=
  { topic := "Gardening"
    branches :=
      [ { id := "b1", name := "Soil", description := ""
          subtopics :=
            [ { id := "s1", name := "pH", description := "" }
            , { id := "s2", name := "Drainage", description := "" } ] }
      , { id := "b2", name := "Planting", description := "", subtopics := [] } ] }

/-- The root→b1 edge of the Gardening example, written out. -/
def exampleRootEdge : FlowEdge :=
  { id := "main-b1", source := "main", target := "b1", animated := true }

/-- The b1→s2 edge of the Gardening example, written out. -/
def exampleLeafEdge : FlowEdge :=
  { id := "b1-s2", source := "b1", target := "s2", animated := false }

end Flow

/-!
The unnamed variant of the layout component (`src/unnamed/part_000`,
lines 130–230): the identical algorithm with different fixed constants —
branch radius 280, branch ring vertical anchor 220, subtopic spread 0.35,
subtopic radius 200 — and the root badge text `🎯 Start`.  It shares the
input and output types of `Flow`.
-/

namespace FlowV2

/-- Angle of branch `i` among `n` branches in the variant (same formula). -/
def branchAngle {α : Type} [Field α] (pi : α) (n i : Nat) : α :=
  2 * pi / (n : α) * (i : α) - pi / 2

/-- x coordinate of branch `i` in the variant: radius 280. -/
def branchPosX {α : Type} [Field α] (pi : α) (cos : α → α) (n i : Nat) : α :=
  400 + 280 * cos (branchAngle pi n i)

/-- y coordinate of branch `i` in the variant: anchor 220, radius 280. -/
def branchPosY {α : Type} [Field α] (pi : α) (sin : α → α) (n i : Nat) : α :=
  220 + 280 * sin (branchAngle pi n i)

/-- Angle of subtopic `j` in the variant: spread constant 0.35. -/
def subtopicAngle {α : Type} [Field α] (angle : α) (m j : Nat) : α :=
  angle + ((j : α) - ((m : α) - 1) / 2) * (7 / 20)

/-- The node pushed for a subtopic in the variant: radius 200. -/
def subtopicNode {α : Type} [Field α] (cos sin : α → α) (angle bx yy : α)
    (m j : Nat) (s : Flow.Subtopic) : Flow.FlowNode α :=
  { id := s.id
    x := bx + 200 * cos (subtopicAngle angle m j)
    y := yy + 200 * sin (subtopicAngle angle m j)
    data := { label := s.name, description := some s.description
              role := Flow.NodeRole.subtopic, badge := none } }

/-- The edge pushed from a branch to one of its subtopics in the variant. -/
def subtopicEdge (branchId : String) (s : Flow.Subtopic) : Flow.FlowEdge :=
  { id := branchId ++ "-" ++ s.id, source := branchId, target := s.id
    animated := false }

/-- The inner subtopic loop of the variant. -/
def subtopicItems {α : Type} [Field α] (cos sin : α → α) (angle bx yy : α)
    (branchId : String) (m : Nat) :
    Nat → List Flow.Subtopic → List (Flow.FlowNode α) × List Flow.FlowEdge
  | _, [] => ([], [])
  | j, s :: rest =>
    let tail := subtopicItems cos sin angle bx yy branchId m (j + 1) rest
    (subtopicNode cos sin angle bx yy m j s :: tail.1,
     subtopicEdge branchId s :: tail.2)

/-- The node pushed for branch `i` in the variant. -/
def branchNode {α : Type} [Field α] (pi : α) (cos sin : α → α) (n i : Nat)
    (b : Flow.Branch) : Flow.FlowNode α :=
  { id := b.id
    x := branchPosX pi cos n i
    y := branchPosY pi sin n i
    data := { label := b.name, description := some b.description
              role := Flow.NodeRole.branch
              badge := some ("Branch " ++ toString (i + 1)) } }

/-- The edge pushed from the main node to a branch in the variant. -/
def branchEdge (b : Flow.Branch) : Flow.FlowEdge :=
  { id := "main-" ++ b.id, source := "main", target := b.id, animated := true }

/-- The outer branch loop of the variant. -/
def branchItems {α : Type} [Field α] (pi : α) (cos sin : α → α) (n : Nat) :
    Nat → List Flow.Branch → List (Flow.FlowNode α) × List Flow.FlowEdge
  | _, [] => ([], [])
  | i, b :: rest =>
    let angle := branchAngle pi n i
    let bx := branchPosX pi cos n i
    let yy := branchPosY pi sin n i
    let subs := subtopicItems cos sin angle bx yy b.id b.subtopics.length 0
      b.subtopics
    let tail := branchItems pi cos sin n (i + 1) rest
    (branchNode pi cos sin n i b :: (subs.1 ++ tail.1),
     branchEdge b :: (subs.2 ++ tail.2))

/-- The main topic node of the variant: same anchor, badge `🎯 Start`. -/
def mainNode {α : Type} [Field α] (topic : String) : Flow.FlowNode α :=
  { id := "main", x := 400, y := 50
    data := { label := topic, description := none
              role := Flow.NodeRole.main, badge := some "🎯 Start" } }

/-- The layout computation of the variant's `useEffect`. -/
def layout {α : Type} [Field α] (pi : α) (cos sin : α → α)
    (d : Flow.LearningMapData) :
    List (Flow.FlowNode α) × List Flow.FlowEdge :=
  let items := branchItems pi cos sin d.branches.length 0 d.branches
  (mainNode d.topic :: items.1, items.2)

end FlowV2

/-- The structural signature of a node: its id, role tag, label and
description — everything except its coordinates and badge text. -/
def nodeSig {α : Type} (n : Flow.FlowNode α) :
    String × Flow.NodeRole × String × Option String :=
  (n.id, n.data.role, n.data.label, n.data.description)

/-!
The serverless request handler (`src/unnamed/part_000`, the `Deno.serve`
body).  The handler is embedded from the point where the request body has
been parsed: its inputs are the optional `topic` string, the configured
credential, the single upstream gateway reply, and — kept abstract, since
their internals decide nothing the claims state — the fenced-code-block
extractor (the regex match) and the JSON parser, with `J` the type of
parsed JSON values.  The handler consumes exactly one upstream reply by
construction: no error case is retried.
-/

namespace Handler

/-- The part of the upstream gateway reply the handler consumes: the HTTP
status of the `fetch`, and the extracted `choices[0].message.content`
(`none` when the chain of optional accesses yields nothing). -/
structure UpstreamResponse where
  status : Nat
  content : Option String
deriving DecidableEq, Repr

/-- The `ok` flag of a Fetch API response: status in the range 200–299. -/
def respOk (status : Nat) : Bool :=
  decide (200 ≤ status ∧ status ≤ 299)

/-- The environment one request sees. -/
structure HandlerEnv (J : Type) where
  apiKey : Option String
  upstream : UpstreamResponse
  extractFenced : String → Option String
  parseJson : String → Option J

/-- An HTTP response: a status code and a body that is either an error
object carrying one error string (left) or the parsed learning map (right). -/
structure HttpResponse (J : Type) where
  status : Nat
  body : String ⊕ J

/-- The missing-topic test `!topic || topic.trim().length === 0`. -/
def topicMissing : Option String → Bool
  | none => true
  | some t => t.trim.length == 0

/-- The request handler after the request body has been read: validate the
topic, require the credential, map the upstream status, extract the
generated content from an optional fenced code block, parse it. -/
def handleRequest {J : Type} (env : HandlerEnv J) (topic : Option String) :
    HttpResponse J :=
  if topicMissing topic then
    { status := 400, body := Sum.inl "Topic is required" }
  else
    match env.apiKey with
    | none => { status := 500, body := Sum.inl "AI service not configured" }
    | some _ =>
      if !respOk env.upstream.status then
        if env.upstream.status = 429 then
          { status := 429
            body := Sum.inl "Rate limit exceeded. Please try again in a moment." }
        else if env.upstream.status = 402 then
          { status := 402
            body := Sum.inl "AI service credits exhausted. Please add credits to continue." }
        else
          { status := 500, body := Sum.inl "Failed to generate learning map" }
      else
        match env.upstream.content with
        | none => { status := 500, body := Sum.inl "No content generated" }
        | some generatedContent =>
          let jsonContent :=
            match env.extractFenced generatedContent with
            | some extracted => extracted
            | none => generatedContent
          match env.parseJson jsonContent with
          | none =>
            { status := 500
              body := Sum.inl "Failed to parse learning map structure" }
          | some learningMap => { status := 200, body := Sum.inr learningMap }

/-- The error contract in the order the spec states it: an empty or missing
topic yields 400 before anything upstream is consulted; an upstream status
of 402 yields 402 and of 429 yields 429; a missing credential, any other
non-OK upstream status, missing generated content, and content that fails
to parse even after fence-stripping each yield 500; otherwise 200 with the
parsed map.  Every error body carries exactly one error string. -/
def specResponse {J : Type} (env : HandlerEnv J) (topic : Option String) :
    HttpResponse J :=
  if topicMissing topic then
    { status := 400, body := Sum.inl "Topic is required" }
  else if env.apiKey = none then
    { status := 500, body := Sum.inl "AI service not configured" }
  else if env.upstream.status = 402 then
    { status := 402
      body := Sum.inl "AI service credits exhausted. Please add credits to continue." }
  else if env.upstream.status = 429 then
    { status := 429
      body := Sum.inl "Rate limit exceeded. Please try again in a moment." }
  else if !respOk env.upstream.status then
    { status := 500, body := Sum.inl "Failed to generate learning map" }
  else
    match env.upstream.content with
    | none => { status := 500, body := Sum.inl "No content generated" }
    | some generatedContent =>
      let jsonContent :=
        match env.extractFenced generatedContent with
        | some extracted => extracted
        | none => generatedContent
      match env.parseJson jsonContent with
      | none =>
        { status := 500
          body := Sum.inl "Failed to parse learning map structure" }
      | some learningMap => { status := 200, body := Sum.inr learningMap }

/-- A concrete environment: no credential configured, failing upstream. -/
def sampleEnvA : HandlerEnv Unit :=
  { apiKey := none
    upstream := { status := 500, content := none }
    extractFenced := fun _ => none
    parseJson := fun _ => none }

/-- A concrete environment: credential set, healthy upstream. -/
def sampleEnvB : HandlerEnv Unit :=
  { apiKey := some "k"
    upstream := { status := 200, content := some "x" }
    extractFenced := fun _ => none
    parseJson := fun _ => some () }

end Handler

/-!
Caller-side validation (`handleGenerate` in `src/src/pages/Index.tsx`): the
generation response is rejected when the body or its `branches` field is
absent (a JavaScript falsy check, so `branches: null` is rejected while an
empty array is accepted) before any tree is handed to the layout component.
-/

namespace Client

/-- The raw generation response as the page sees it: the `branches` field
may be absent or null. -/
structure RawLearningMap where
  topic : String
  branches : Option (List Flow.Branch)

/-- The validation in `handleGenerate`:
`if (!data || !data.branches) throw new Error(...)`. -/
def acceptGenerated :
    Option RawLearningMap → Except String Flow.LearningMapData
  | none => Except.error "Invalid learning map structure received"
  | some d =>
    match d.branches with
    | none => Except.error "Invalid learning map structure received"
    | some bs => Except.ok { topic := d.topic, branches := bs }

/-- The page renders the flow component only with an accepted tree, so
layout runs exactly on the validated data. -/
def renderPipeline {α : Type} [Field α] (pi : α) (cos sin : α → α)
    (resp : Option RawLearningMap) :
    Except String (List (Flow.FlowNode α) × List Flow.FlowEdge) :=
  (acceptGenerated resp).map (Flow.layout pi cos sin)

end Client

namespace Flow

variable {α : Type} [Field α]

theorem subtopicItems_fst_length (cos sin : α → α) (angle bx yy : α)
    (branchId : String) (m : Nat) (j : Nat) (ss : List Subtopic) :
    (subtopicItems cos sin angle bx yy branchId m j ss).1.length = ss.length := by
  induction ss generalizing j with
  | nil => rfl
  | cons s rest ih => simp [subtopicItems, ih]

theorem subtopicItems_snd_length (cos sin : α → α) (angle bx yy : α)
    (branchId : String) (m : Nat) (j : Nat) (ss : List Subtopic) :
    (subtopicItems cos sin angle bx yy branchId m j ss).2.length = ss.length := by
  induction ss generalizing j with
  | nil => rfl
  | cons s rest ih => simp [subtopicItems, ih]

theorem branchItems_fst_length (pi : α) (cos sin : α → α) (n i : Nat)
    (bs : List Branch) :
    (branchItems pi cos sin n i bs).1.length =
      bs.length + (bs.map fun b => b.subtopics.length).sum := by
  induction bs generalizing i with
  | nil => rfl
  | cons b rest ih =>
    simp [branchItems, subtopicItems_fst_length, ih]
    ring

theorem branchItems_snd_length (pi : α) (cos sin : α → α) (n i : Nat)
    (bs : List Branch) :
    (branchItems pi cos sin n i bs).2.length =
      bs.length + (bs.map fun b => b.subtopics.length).sum := by
  induction bs generalizing i with
  | nil => rfl
  | cons b rest ih =>
    simp [branchItems, subtopicItems_snd_length, ih]
    ring

theorem branchNode_mem_branchItems (pi : α) (cos sin : α → α) (n : Nat)
    (i k : Nat) (bs : List Branch) (hk : k < bs.length) :
    branchNode pi cos sin n (i + k) (bs.get ⟨k, hk⟩) ∈
      (branchItems pi cos sin n i bs).1 := by
  induction bs generalizing i k with
  | nil => exact absurd hk (by simp)
  | cons b rest ih =>
    match k with
    | 0 => simp [branchItems]
    | k + 1 =>
      have h := ih (i + 1) k (by simpa using hk)
      simp only [branchItems, List.mem_cons, List.mem_append]
      right; right
      have harith : i + (k + 1) = i + 1 + k := by omega
      rw [harith]
      exact h

theorem subtopicNode_mem_subtopicItems (cos sin : α → α) (angle bx yy : α)
    (branchId : String) (m : Nat) (j k : Nat) (ss : List Subtopic)
    (hk : k < ss.length) :
    subtopicNode cos sin angle bx yy m (j + k) (ss.get ⟨k, hk⟩) ∈
      (subtopicItems cos sin angle bx yy branchId m j ss).1 := by
  induction ss generalizing j k with
  | nil => exact absurd hk (by simp)
  | cons s rest ih =>
    match k with
    | 0 => simp [subtopicItems]
    | k + 1 =>
      have h := ih (j + 1) k (by simpa using hk)
      simp only [subtopicItems, List.mem_cons]
      right
      have harith : j + (k + 1) = j + 1 + k := by omega
      rw [harith]
      exact h

theorem subtopicNode_mem_branchItems (pi : α) (cos sin : α → α) (n : Nat)
    (i k : Nat) (bs : List Branch) (hk : k < bs.length) (l : Nat)
    (hl : l < (bs.get ⟨k, hk⟩).subtopics.length) :
    subtopicNode cos sin (branchAngle pi n (i + k)) (branchPosX pi cos n (i + k))
        (branchPosY pi sin n (i + k)) (bs.get ⟨k, hk⟩).subtopics.length l
        ((bs.get ⟨k, hk⟩).subtopics.get ⟨l, hl⟩) ∈
      (branchItems pi cos sin n i bs).1 := by
  induction bs generalizing i k with
  | nil => exact absurd hk (by simp)
  | cons b rest ih =>
    match k with
    | 0 =>
      simp only [branchItems, List.mem_cons, List.mem_append]
      right; left
      have h := subtopicNode_mem_subtopicItems cos sin (branchAngle pi n (i + 0))
        (branchPosX pi cos n (i + 0)) (branchPosY pi sin n (i + 0)) b.id
        b.subtopics.length 0 l b.subtopics (by simpa using hl)
      simpa using h
    | k + 1 =>
      have h := ih (i + 1) k (by simpa using hk) (by simpa using hl)
      simp only [branchItems, List.mem_cons, List.mem_append]
      right; right
      have harith : i + (k + 1) = i + 1 + k := by omega
      rw [harith]
      exact h

theorem subtopicItems_snd_id (cos sin : α → α) (angle bx yy : α)
    (branchId : String) (m : Nat) (j : Nat) (ss : List Subtopic) :
    ∀ e ∈ (subtopicItems cos sin angle bx yy branchId m j ss).2,
      e.id = e.source ++ "-" ++ e.target := by
  induction ss generalizing j with
  | nil => intro e he; exact absurd he (by simp [subtopicItems])
  | cons s rest ih =>
    intro e he
    simp only [subtopicItems, List.mem_cons] at he
    rcases he with rfl | hmem
    · rfl
    · exact ih (j + 1) e hmem

theorem branchItems_snd_id (pi : α) (cos sin : α → α) (n i : Nat)
    (bs : List Branch) :
    ∀ e ∈ (branchItems pi cos sin n i bs).2,
      e.id = e.source ++ "-" ++ e.target := by
  induction bs generalizing i with
  | nil => intro e he; exact absurd he (by simp [branchItems])
  | cons b rest ih =>
    intro e he
    simp only [branchItems, List.mem_cons, List.mem_append] at he
    rcases he with rfl | hmem | hmem
    · rfl
    · exact subtopicItems_snd_id cos sin _ _ _ b.id b.subtopics.length 0
        b.subtopics e hmem
    · exact ih (i + 1) e hmem

theorem subtopicItems_snd_endpoints (cos sin : α → α) (angle bx yy : α)
    (branchId : String) (m : Nat) (j : Nat) (ss : List Subtopic) :
    ∀ e ∈ (subtopicItems cos sin angle bx yy branchId m j ss).2,
      e.source = branchId ∧
      ∃ node ∈ (subtopicItems cos sin angle bx yy branchId m j ss).1,
        node.id = e.target ∧ node.data.role = NodeRole.subtopic := by
  induction ss generalizing j with
  | nil => intro e he; exact absurd he (by simp [subtopicItems])
  | cons s rest ih =>
    intro e he
    simp only [subtopicItems, List.mem_cons] at he
    rcases he with rfl | hmem
    · exact ⟨rfl, subtopicNode cos sin angle bx yy m j s,
        by simp [subtopicItems], rfl, rfl⟩
    · obtain ⟨hsrc, node, hnode, hid, hrole⟩ := ih (j + 1) e hmem
      exact ⟨hsrc, node,
        by simp only [subtopicItems, List.mem_cons]; exact Or.inr hnode,
        hid, hrole⟩

theorem branchItems_snd_endpoints (pi : α) (cos sin : α → α) (n i : Nat)
    (bs : List Branch) :
    ∀ e ∈ (branchItems pi cos sin n i bs).2,
      (e.source = "main" ∧
        ∃ node ∈ (branchItems pi cos sin n i bs).1,
          node.id = e.target ∧ node.data.role = NodeRole.branch) ∨
      ((∃ node ∈ (branchItems pi cos sin n i bs).1,
          node.id = e.source ∧ node.data.role = NodeRole.branch) ∧
       (∃ node ∈ (branchItems pi cos sin n i bs).1,
          node.id = e.target ∧ node.data.role = NodeRole.subtopic)) := by
  induction bs generalizing i with
  | nil => intro e he; exact absurd he (by simp [branchItems])
  | cons b rest ih =>
    intro e he
    simp only [branchItems, List.mem_cons, List.mem_append] at he
    rcases he with rfl | hmem | hmem
    · exact Or.inl ⟨rfl, branchNode pi cos sin n i b,
        by simp [branchItems], rfl, rfl⟩
    · obtain ⟨hsrc, node, hnode, hid, hrole⟩ :=
        subtopicItems_snd_endpoints cos sin _ _ _ b.id b.subtopics.length 0
          b.subtopics e hmem
      refine Or.inr ⟨⟨branchNode pi cos sin n i b,
        by simp [branchItems], hsrc.symm, rfl⟩,
        node, ?_, hid, hrole⟩
      simp only [branchItems, List.mem_cons, List.mem_append]
      exact Or.inr (Or.inl hnode)
    · rcases ih (i + 1) e hmem with ⟨hsrc, node, hnode, hid, hrole⟩ |
        ⟨⟨ns, hns, hnsid, hnsrole⟩, nt, hnt, hntid, hntrole⟩
      · refine Or.inl ⟨hsrc, node, ?_, hid, hrole⟩
        simp only [branchItems, List.mem_cons, List.mem_append]
        exact Or.inr (Or.inr hnode)
      · refine Or.inr ⟨⟨ns, ?_, hnsid, hnsrole⟩, nt, ?_, hntid, hntrole⟩
        · simp only [branchItems, List.mem_cons, List.mem_append]
          exact Or.inr (Or.inr hns)
        · simp only [branchItems, List.mem_cons, List.mem_append]
          exact Or.inr (Or.inr hnt)

end Flow

/-- C1: for every input tree with `N ≥ 1` branches, where branch `i` has
`Mᵢ ≥ 0` subtopics, the layout produces exactly `1 + N + Σ Mᵢ` nodes and
exactly `N + Σ Mᵢ` edges. -/
theorem layout_node_edge_count {α : Type} [Field α] (pi : α) (cos sin : α → α)
    (d : Flow.LearningMapData) (hn : 1 ≤ d.branches.length) :
    (Flow.layout pi cos sin d).1.length =
      1 + d.branches.length + Flow.totalSubtopics d ∧
    (Flow.layout pi cos sin d).2.length =
      d.branches.length + Flow.totalSubtopics d := by
  constructor
  · simp [Flow.layout, Flow.branchItems_fst_length, Flow.totalSubtopics]
    ring
  · simp [Flow.layout, Flow.branchItems_snd_length, Flow.totalSubtopics]

/-- Witness for C1: the Gardening example has `N = 2` branches and
`Σ Mᵢ = 2` subtopics, giving 5 nodes and 4 edges. -/
theorem layout_node_edge_count_witness :
    (Flow.layout (0 : ℚ) (fun x => x) (fun x => x) Flow.exampleData).1.length =
      1 + Flow.exampleData.branches.length + Flow.totalSubtopics Flow.exampleData ∧
    (Flow.layout (0 : ℚ) (fun x => x) (fun x => x) Flow.exampleData).2.length =
      Flow.exampleData.branches.length + Flow.totalSubtopics Flow.exampleData :=
  layout_node_edge_count 0 _ _ Flow.exampleData (by decide)

/-- C2: on a tree with zero branches the layout is total (the embedded
function never fails; the angular step `2π / N` is never consumed when the
branch list is empty) and the output is exactly the single root node and no
edges. -/
theorem layout_zero_branches {α : Type} [Field α] (pi : α) (cos sin : α → α)
    (topic : String) :
    Flow.layout pi cos sin { topic := topic, branches := [] } =
      ([Flow.mainNode topic], []) := rfl

/-- C3: branch `i` of `N` branches is emitted at angle
`αᵢ = i·(2π/N) − π/2` (first branch at the top), at position
`(Cx + R_b·cos αᵢ, Cy1 + R_b·sin αᵢ)` with `Cx = 400`, `R_b = 250`,
`Cy1 = 200`, while the root sits first in the node list at the distinct
vertical anchor `y = 50`. -/
theorem layout_branch_position (d : Flow.LearningMapData) (i : Nat)
    (h : i < d.branches.length) :
    (∃ node ∈ (Flow.layout Real.pi Real.cos Real.sin d).1,
        node.id = (d.branches.get ⟨i, h⟩).id ∧
        node.x = 400 + 250 * Real.cos
            ((i : ℝ) * (2 * Real.pi / d.branches.length) - Real.pi / 2) ∧
        node.y = 200 + 250 * Real.sin
            ((i : ℝ) * (2 * Real.pi / d.branches.length) - Real.pi / 2)) ∧
    (Flow.layout Real.pi Real.cos Real.sin d).1.head? =
      some (Flow.mainNode d.topic) ∧
    (Flow.mainNode d.topic : Flow.FlowNode ℝ).y = 50 ∧ (200 : ℝ) ≠ 50 := by
  have hang : Flow.branchAngle Real.pi d.branches.length i =
      (i : ℝ) * (2 * Real.pi / d.branches.length) - Real.pi / 2 := by
    unfold Flow.branchAngle; ring
  refine ⟨⟨Flow.branchNode Real.pi Real.cos Real.sin d.branches.length i
      (d.branches.get ⟨i, h⟩), ?_, rfl, ?_, ?_⟩, rfl, rfl, by norm_num⟩
  · have hmem := Flow.branchNode_mem_branchItems Real.pi Real.cos Real.sin
      d.branches.length 0 i d.branches h
    simp [Flow.layout]
    exact Or.inr (by simpa using hmem)
  · simp [Flow.branchNode, Flow.branchPosX, hang]
  · simp [Flow.branchNode, Flow.branchPosY, hang]

/-- Witness for C3 at the Gardening example with branch index 0. -/
theorem layout_branch_position_witness :
    (∃ node ∈ (Flow.layout Real.pi Real.cos Real.sin Flow.exampleData).1,
        node.id = (Flow.exampleData.branches.get ⟨0, by decide⟩).id ∧
        node.x = 400 + 250 * Real.cos
            ((0 : ℝ) * (2 * Real.pi / Flow.exampleData.branches.length) -
              Real.pi / 2) ∧
        node.y = 200 + 250 * Real.sin
            ((0 : ℝ) * (2 * Real.pi / Flow.exampleData.branches.length) -
              Real.pi / 2)) ∧
    (Flow.layout Real.pi Real.cos Real.sin Flow.exampleData).1.head? =
      some (Flow.mainNode Flow.exampleData.topic) ∧
    (Flow.mainNode Flow.exampleData.topic : Flow.FlowNode ℝ).y = 50 ∧
    (200 : ℝ) ≠ 50 := by
  have h := layout_branch_position Flow.exampleData 0 (by decide)
  simpa using h

/-- C4: subtopic `j` of branch `i` (which has `M` subtopics) is emitted at
angle `βᵢⱼ = αᵢ + (j − (M−1)/2)·Δ` with `Δ = 3/10`, at radius `R_s = 180`
measured from the branch's own position
`(400 + 250·cos αᵢ, 200 + 250·sin αᵢ)`, so the fan is centred on the
branch's outward direction `αᵢ`. -/
theorem layout_subtopic_position (d : Flow.LearningMapData) (i : Nat)
    (hi : i < d.branches.length) (j : Nat)
    (hj : j < (d.branches.get ⟨i, hi⟩).subtopics.length) :
    ∃ node ∈ (Flow.layout Real.pi Real.cos Real.sin d).1,
      node.id = ((d.branches.get ⟨i, hi⟩).subtopics.get ⟨j, hj⟩).id ∧
      node.x = (400 + 250 * Real.cos
          ((i : ℝ) * (2 * Real.pi / d.branches.length) - Real.pi / 2)) +
        180 * Real.cos
          (((i : ℝ) * (2 * Real.pi / d.branches.length) - Real.pi / 2) +
            ((j : ℝ) - (((d.branches.get ⟨i, hi⟩).subtopics.length : ℝ) - 1) / 2) *
              (3 / 10)) ∧
      node.y = (200 + 250 * Real.sin
          ((i : ℝ) * (2 * Real.pi / d.branches.length) - Real.pi / 2)) +
        180 * Real.sin
          (((i : ℝ) * (2 * Real.pi / d.branches.length) - Real.pi / 2) +
            ((j : ℝ) - (((d.branches.get ⟨i, hi⟩).subtopics.length : ℝ) - 1) / 2) *
              (3 / 10)) := by
  have hang : Flow.branchAngle Real.pi d.branches.length i =
      (i : ℝ) * (2 * Real.pi / d.branches.length) - Real.pi / 2 := by
    unfold Flow.branchAngle; ring
  refine ⟨Flow.subtopicNode Real.cos Real.sin
      (Flow.branchAngle Real.pi d.branches.length i)
      (Flow.branchPosX Real.pi Real.cos d.branches.length i)
      (Flow.branchPosY Real.pi Real.sin d.branches.length i)
      (d.branches.get ⟨i, hi⟩).subtopics.length j
      ((d.branches.get ⟨i, hi⟩).subtopics.get ⟨j, hj⟩), ?_, rfl, ?_, ?_⟩
  · have hmem := Flow.subtopicNode_mem_branchItems Real.pi Real.cos Real.sin
      d.branches.length 0 i d.branches hi j hj
    simp [Flow.layout]
    exact Or.inr (by simpa using hmem)
  · simp [Flow.subtopicNode, Flow.subtopicAngle, Flow.branchPosX, hang]
  · simp [Flow.subtopicNode, Flow.subtopicAngle, Flow.branchPosY, hang]

/-- Witness for C4 at the Gardening example, branch 0, subtopic 1. -/
theorem layout_subtopic_position_witness :
    ∃ node ∈ (Flow.layout Real.pi Real.cos Real.sin Flow.exampleData).1,
      node.id =
        ((Flow.exampleData.branches.get ⟨0, by decide⟩).subtopics.get
          ⟨1, by decide⟩).id ∧
      node.x = (400 + 250 * Real.cos
          ((0 : ℝ) * (2 * Real.pi / Flow.exampleData.branches.length) -
            Real.pi / 2)) +
        180 * Real.cos
          (((0 : ℝ) * (2 * Real.pi / Flow.exampleData.branches.length) -
              Real.pi / 2) +
            ((1 : ℝ) -
              (((Flow.exampleData.branches.get ⟨0, by decide⟩).subtopics.length : ℝ) -
                1) / 2) * (3 / 10)) ∧
      node.y = (200 + 250 * Real.sin
          ((0 : ℝ) * (2 * Real.pi / Flow.exampleData.branches.length) -
            Real.pi / 2)) +
        180 * Real.sin
          (((0 : ℝ) * (2 * Real.pi / Flow.exampleData.branches.length) -
              Real.pi / 2) +
            ((1 : ℝ) -
              (((Flow.exampleData.branches.get ⟨0, by decide⟩).subtopics.length : ℝ) -
                1) / 2) * (3 / 10)) := by
  have h := layout_subtopic_position Flow.exampleData 0 (by decide) 1 (by decide)
  simpa using h

/-- C5: layout is deterministic — equal input trees give identical node and
edge sequences (the embedded computation is a pure function of the tree) —
and every emitted edge's identifier is derived from its endpoint ids alone,
as the concatenation `source ++ "-" ++ target`, so re-running layout on the
same tree reproduces the same edge identifiers. -/
theorem layout_deterministic_edge_ids {α : Type} [Field α] (pi : α)
    (cos sin : α → α) (d d' : Flow.LearningMapData) :
    (d = d' → Flow.layout pi cos sin d = Flow.layout pi cos sin d') ∧
    ∀ e ∈ (Flow.layout pi cos sin d).2,
      e.id = e.source ++ "-" ++ e.target := by
  refine ⟨fun h => by rw [h], fun e he => ?_⟩
  exact Flow.branchItems_snd_id pi cos sin d.branches.length 0 d.branches e
    (by simpa [Flow.layout] using he)

/-- Witness for C5 at the Gardening example: re-laying out the identical
tree reproduces the output, and the root→b1 edge's id is the concatenation
of its endpoint ids. -/
theorem layout_deterministic_edge_ids_witness :
    Flow.layout (0 : ℚ) (fun x => x) (fun x => x) Flow.exampleData =
      Flow.layout (0 : ℚ) (fun x => x) (fun x => x) Flow.exampleData ∧
    Flow.exampleRootEdge.id =
      Flow.exampleRootEdge.source ++ "-" ++ Flow.exampleRootEdge.target :=
  ⟨(layout_deterministic_edge_ids (0 : ℚ) (fun x => x) (fun x => x)
      Flow.exampleData Flow.exampleData).1 rfl,
   (layout_deterministic_edge_ids (0 : ℚ) (fun x => x) (fun x => x)
      Flow.exampleData Flow.exampleData).2 Flow.exampleRootEdge (by decide)⟩

/-- C6: no dangling edges — every emitted edge's source and target ids are
ids of emitted nodes; moreover each edge either links the `main`-role root
node to a `branch`-role node or links a `branch`-role node to a
`subtopic`-role node. -/
theorem layout_no_dangling_edges {α : Type} [Field α] (pi : α)
    (cos sin : α → α) (d : Flow.LearningMapData) :
    ∀ e ∈ (Flow.layout pi cos sin d).2,
      ∃ ns ∈ (Flow.layout pi cos sin d).1,
        ∃ nt ∈ (Flow.layout pi cos sin d).1,
          ns.id = e.source ∧ nt.id = e.target ∧
          ((ns.data.role = Flow.NodeRole.main ∧
              nt.data.role = Flow.NodeRole.branch) ∨
           (ns.data.role = Flow.NodeRole.branch ∧
              nt.data.role = Flow.NodeRole.subtopic)) := by
  intro e he
  have he' : e ∈ (Flow.branchItems pi cos sin d.branches.length 0 d.branches).2 :=
    by simpa [Flow.layout] using he
  have hnodes : (Flow.layout pi cos sin d).1 =
      Flow.mainNode d.topic ::
        (Flow.branchItems pi cos sin d.branches.length 0 d.branches).1 := rfl
  rcases Flow.branchItems_snd_endpoints pi cos sin d.branches.length 0
      d.branches e he' with
    ⟨hsrc, node, hnode, hid, hrole⟩ |
    ⟨⟨ns, hns, hnsid, hnsrole⟩, nt, hnt, hntid, hntrole⟩
  · refine ⟨Flow.mainNode d.topic, ?_, node, ?_, hsrc.symm, hid, Or.inl ⟨rfl, hrole⟩⟩
    · rw [hnodes]; exact List.mem_cons_self _ _
    · rw [hnodes]; exact List.mem_cons_of_mem _ hnode
  · refine ⟨ns, ?_, nt, ?_, hnsid, hntid, Or.inr ⟨hnsrole, hntrole⟩⟩
    · rw [hnodes]; exact List.mem_cons_of_mem _ hns
    · rw [hnodes]; exact List.mem_cons_of_mem _ hnt

/-- Witness for C6 at the Gardening example: the b1→s2 edge has both
endpoints among the emitted nodes. -/
theorem layout_no_dangling_edges_witness :
    ∃ ns ∈ (Flow.layout (0 : ℚ) (fun x => x) (fun x => x) Flow.exampleData).1,
      ∃ nt ∈ (Flow.layout (0 : ℚ) (fun x => x) (fun x => x) Flow.exampleData).1,
        ns.id = Flow.exampleLeafEdge.source ∧
        nt.id = Flow.exampleLeafEdge.target ∧
        ((ns.data.role = Flow.NodeRole.main ∧
            nt.data.role = Flow.NodeRole.branch) ∨
         (ns.data.role = Flow.NodeRole.branch ∧
            nt.data.role = Flow.NodeRole.subtopic)) :=
  layout_no_dangling_edges (0 : ℚ) (fun x => x) (fun x => x) Flow.exampleData
    Flow.exampleLeafEdge (by decide)

/-- C7: for a branch with exactly one subtopic (`M = 1`), the lone subtopic's
angle equals the branch's own angle `αᵢ` — the fan collapses onto the radial
line, with no special case in the formula. -/
theorem single_subtopic_on_radial {α : Type} [Field α] (pi : α) (n i : Nat) :
    Flow.subtopicAngle (Flow.branchAngle pi n i) 1 0 =
      Flow.branchAngle pi n i := by
  simp [Flow.subtopicAngle]

theorem variant_subtopicItems_sig {α : Type} [Field α] (cos sin : α → α)
    (a bx yy a2 bx2 yy2 : α) (branchId : String) (m j : Nat)
    (ss : List Flow.Subtopic) :
    (Flow.subtopicItems cos sin a bx yy branchId m j ss).1.map nodeSig =
      (FlowV2.subtopicItems cos sin a2 bx2 yy2 branchId m j ss).1.map nodeSig := by
  induction ss generalizing j with
  | nil => rfl
  | cons s rest ih =>
    simp only [Flow.subtopicItems, FlowV2.subtopicItems, List.map_cons]
    rw [ih (j + 1)]
    rfl

theorem variant_subtopicItems_badge {α : Type} [Field α] (cos sin : α → α)
    (a bx yy a2 bx2 yy2 : α) (branchId : String) (m j : Nat)
    (ss : List Flow.Subtopic) :
    ((Flow.subtopicItems cos sin a bx yy branchId m j ss).1.map
        fun n => n.data.badge) =
      ((FlowV2.subtopicItems cos sin a2 bx2 yy2 branchId m j ss).1.map
        fun n => n.data.badge) := by
  induction ss generalizing j with
  | nil => rfl
  | cons s rest ih =>
    simp only [Flow.subtopicItems, FlowV2.subtopicItems, List.map_cons]
    rw [ih (j + 1)]
    rfl

theorem variant_subtopicItems_edges {α : Type} [Field α] (cos sin : α → α)
    (a bx yy a2 bx2 yy2 : α) (branchId : String) (m j : Nat)
    (ss : List Flow.Subtopic) :
    (Flow.subtopicItems cos sin a bx yy branchId m j ss).2 =
      (FlowV2.subtopicItems cos sin a2 bx2 yy2 branchId m j ss).2 := by
  induction ss generalizing j with
  | nil => rfl
  | cons s rest ih =>
    simp only [Flow.subtopicItems, FlowV2.subtopicItems]
    rw [ih (j + 1)]
    rfl

theorem variant_branchItems_sig {α : Type} [Field α] (pi : α)
    (cos sin : α → α) (n i : Nat) (bs : List Flow.Branch) :
    (Flow.branchItems pi cos sin n i bs).1.map nodeSig =
      (FlowV2.branchItems pi cos sin n i bs).1.map nodeSig := by
  induction bs generalizing i with
  | nil => rfl
  | cons b rest ih =>
    simp only [Flow.branchItems, FlowV2.branchItems, List.map_cons,
      List.map_append]
    rw [variant_subtopicItems_sig cos sin _ _ _ (FlowV2.branchAngle pi n i)
      (FlowV2.branchPosX pi cos n i) (FlowV2.branchPosY pi sin n i) b.id
      b.subtopics.length 0 b.subtopics, ih (i + 1)]
    rfl

theorem variant_branchItems_badge {α : Type} [Field α] (pi : α)
    (cos sin : α → α) (n i : Nat) (bs : List Flow.Branch) :
    ((Flow.branchItems pi cos sin n i bs).1.map fun n => n.data.badge) =
      ((FlowV2.branchItems pi cos sin n i bs).1.map fun n => n.data.badge) := by
  induction bs generalizing i with
  | nil => rfl
  | cons b rest ih =>
    simp only [Flow.branchItems, FlowV2.branchItems, List.map_cons,
      List.map_append]
    rw [variant_subtopicItems_badge cos sin _ _ _ (FlowV2.branchAngle pi n i)
      (FlowV2.branchPosX pi cos n i) (FlowV2.branchPosY pi sin n i) b.id
      b.subtopics.length 0 b.subtopics, ih (i + 1)]
    rfl

theorem variant_branchItems_edges {α : Type} [Field α] (pi : α)
    (cos sin : α → α) (n i : Nat) (bs : List Flow.Branch) :
    (Flow.branchItems pi cos sin n i bs).2 =
      (FlowV2.branchItems pi cos sin n i bs).2 := by
  induction bs generalizing i with
  | nil => rfl
  | cons b rest ih =>
    simp only [Flow.branchItems, FlowV2.branchItems]
    rw [variant_subtopicItems_edges cos sin _ _ _ (FlowV2.branchAngle pi n i)
      (FlowV2.branchPosX pi cos n i) (FlowV2.branchPosY pi sin n i) b.id
      b.subtopics.length 0 b.subtopics, ih (i + 1)]
    rfl

/-- C10: the two layout implementations are structurally equivalent — for
every input tree they emit the same node ids, role tags, labels and
descriptions in the same order, the same branch and subtopic badges (the
node lists can differ only at the root badge and in the coordinates
computed from their different fixed constants), and identical edge
sequences. -/
theorem layout_variants_equivalent {α : Type} [Field α] (pi : α)
    (cos sin : α → α) (d : Flow.LearningMapData) :
    (Flow.layout pi cos sin d).1.map nodeSig =
      (FlowV2.layout pi cos sin d).1.map nodeSig ∧
    ((Flow.layout pi cos sin d).1.map fun n => n.data.badge).tail =
      ((FlowV2.layout pi cos sin d).1.map fun n => n.data.badge).tail ∧
    (Flow.layout pi cos sin d).2 = (FlowV2.layout pi cos sin d).2 := by
  refine ⟨?_, ?_, ?_⟩
  · simp only [Flow.layout, FlowV2.layout, List.map_cons]
    rw [variant_branchItems_sig]
    rfl
  · simp only [Flow.layout, FlowV2.layout, List.map_cons, List.tail_cons]
    rw [variant_branchItems_badge]
  · simp only [Flow.layout, FlowV2.layout]
    exact variant_branchItems_edges pi cos sin d.branches.length 0 d.branches

/-- C8: the request handler's responses realise exactly the spec's error
contract — 400 with an error body for an empty or missing topic,
independently of credential and upstream (nothing upstream is consulted);
402 and 429 passed through from the upstream status; 500 with an error body
for a missing credential, any other non-OK upstream status, missing
generated content, or content that fails to parse as JSON even after
stripping a fenced code block; each error body carries exactly one error
string, and the single consumed upstream reply is never retried. -/
theorem handler_error_contract {J : Type} (env env' : Handler.HandlerEnv J)
    (t : Option String) :
    Handler.handleRequest env t = Handler.specResponse env t ∧
    (Handler.topicMissing t = true →
      Handler.handleRequest env t = Handler.handleRequest env' t) := by
  constructor
  · unfold Handler.handleRequest Handler.specResponse
    by_cases ht : Handler.topicMissing t = true
    · simp [ht]
    · simp only [ht, if_false]
      cases hk : env.apiKey with
      | none => simp
      | some k =>
        simp only [reduceCtorEq, if_false]
        by_cases h402 : env.upstream.status = 402
        · simp [h402, Handler.respOk]
        · by_cases h429 : env.upstream.status = 429
          · simp [h429, Handler.respOk]
          · by_cases hok : Handler.respOk env.upstream.status = true
            · simp [h402, h429, hok]
            · have hok' : Handler.respOk env.upstream.status = false :=
                Bool.not_eq_true _ ▸ Bool.eq_false_iff.mpr hok
              simp [h402, h429, hok']
  · intro ht
    simp [Handler.handleRequest, ht]

/-- Witness for C8 at a missing topic: the handler matches the spec
contract and its result is independent of credential and upstream state. -/
theorem handler_error_contract_witness :
    Handler.handleRequest Handler.sampleEnvA none =
      Handler.specResponse Handler.sampleEnvA none ∧
    Handler.handleRequest Handler.sampleEnvA none =
      Handler.handleRequest Handler.sampleEnvB none :=
  ⟨(handler_error_contract Handler.sampleEnvA Handler.sampleEnvB none).1,
   (handler_error_contract Handler.sampleEnvA Handler.sampleEnvB none).2
     (by decide)⟩

/-- C9: a generation response whose body or `branches` field is absent is
rejected by the caller as a hard error before layout is invoked, so the
layout engine never executes on such input: the render pipeline produces
the error, not a laid-out map. -/
theorem branches_null_rejected {α : Type} [Field α] (pi : α)
    (cos sin : α → α) (t : String) :
    Client.acceptGenerated (some { topic := t, branches := none }) =
      Except.error "Invalid learning map structure received" ∧
    Client.acceptGenerated none =
      Except.error "Invalid learning map structure received" ∧
    Client.renderPipeline pi cos sin (some { topic := t, branches := none }) =
      Except.error "Invalid learning map structure received" ∧
    Client.renderPipeline pi cos sin none =
      Except.error "Invalid learning map structure received" :=
  ⟨rfl, rfl, rfl, rfl⟩
